import Mathlib

/-!
Shallow embedding of `src/vs/editor/common/controller/cursorMoveOperations.ts`
(class `MoveOperations`) over a line-oriented text buffer.

A buffer is a list of lines; each line is a list of UTF-16 code unit values
(`Nat`).  Line numbers and columns are 1-based `Nat`s as in the source;
`leftoverVisibleColumns` is an `Int` because the source computes it as a
difference that can go negative.  JavaScript arithmetic on in-contract inputs
(line numbers in range, columns ≥ 1, `noOfColumns` ≥ 1) coincides with the
`Nat` arithmetic used here; out-of-contract negative intermediates are
truncated at 0 by `Nat` subtraction, which never changes the branch taken by
the clamping comparisons below.

Collaborators of `MoveOperations` (`CursorColumns`, `SingleCursorState`,
`strings.prevCharLength`/`nextCharLength`, the `ICursorSimpleModel`
accessors) are not part of the repository snapshot; they are modelled from
the specification, as documented on each definition.
-/

set_option autoImplicit false

/-- A line's content: the list of its UTF-16 code unit values. -/
abbrev LineContent := List Nat

/-- A buffer snapshot: the list of its lines. -/
abbrev Buffer := List LineContent

/-- Modelled from the spec: buffer accessor `lineCount() -> integer`. -/
def getLineCount (b : Buffer) : Nat := b.length

/-- Modelled from the spec: buffer accessor `lineContent(lineNumber) -> text`
(1-based line number; out-of-range defaults to the empty line, the checked
variants below detect out-of-range access instead). -/
def getLineContent (b : Buffer) (lineNumber : Nat) : LineContent :=
  b.getD (lineNumber - 1) []

/-- Modelled from the spec: buffer accessor `lineMinColumn(lineNumber)`,
always 1. -/
def getLineMinColumn (b : Buffer) (lineNumber : Nat) : Nat := 1

/-- Modelled from the spec: buffer accessor `lineMaxColumn(lineNumber)`,
text length + 1. -/
def getLineMaxColumn (b : Buffer) (lineNumber : Nat) : Nat :=
  (getLineContent b lineNumber).length + 1

/-- Modelled from the spec: whitespace code units (space and tab). -/
def isWhitespaceCode (c : Nat) : Bool := c = 32 || c = 9

/-- Helper for `getLineFirstNonWhitespaceColumn`: first non-whitespace
column starting the count at `k`, or 0 when the rest is all whitespace. -/
def firstNonWhitespaceAux : LineContent → Nat → Nat
  | [], _ => 0
  | c :: rest, k =>
    if isWhitespaceCode c then firstNonWhitespaceAux rest (k + 1) else k

/-- Modelled from the spec: buffer accessor
`lineFirstNonWhitespaceColumn(lineNumber) -> integer | none`, with `none`
encoded as 0 (matching the `|| minColumn` fallback idiom of the source). -/
def getLineFirstNonWhitespaceColumn (b : Buffer) (lineNumber : Nat) : Nat :=
  firstNonWhitespaceAux (getLineContent b lineNumber) 1

/-- Checked variant of `getLineContent`: `none` when the line number is
outside `[1, lineCount]`. -/
def getLineContentChecked (b : Buffer) (lineNumber : Nat) : Option LineContent :=
  if 1 ≤ lineNumber ∧ lineNumber ≤ b.length then some (getLineContent b lineNumber) else none

/-- Checked variant of `getLineMaxColumn`: `none` when the line number is
outside `[1, lineCount]`. -/
def getLineMaxColumnChecked (b : Buffer) (lineNumber : Nat) : Option Nat :=
  if 1 ≤ lineNumber ∧ lineNumber ≤ b.length then some (getLineMaxColumn b lineNumber) else none

namespace CursorColumns

/-- Modelled from the spec: the next multiple of `tabSize` strictly above
`visibleColumn` (a tab contributes `tabSize - visibleColumn % tabSize`). -/
def nextRenderTabStop (visibleColumn tabSize : Nat) : Nat :=
  visibleColumn + tabSize - visibleColumn % tabSize

/-- Visible-width contribution of one code unit `c` starting at visible
column `acc`: a tab (code 9) advances to the next tab stop, any other unit
contributes 1. -/
def visibleStep (tabSize acc c : Nat) : Nat :=
  if c = 9 then nextRenderTabStop acc tabSize else acc + 1

/-- Accumulate the visible width of a whole list of code units starting at
visible column `acc`. -/
def visibleWidthAux (tabSize : Nat) : LineContent → Nat → Nat
  | [], acc => acc
  | c :: rest, acc => visibleWidthAux tabSize rest (visibleStep tabSize acc c)

/-- Accumulate the visible width of the first `k` code units starting at
visible column `acc` (stops early when the list ends). -/
def visibleWidthTake (tabSize : Nat) : LineContent → Nat → Nat → Nat
  | _, 0, acc => acc
  | [], _, acc => acc
  | c :: rest, k + 1, acc => visibleWidthTake tabSize rest k (visibleStep tabSize acc c)

/-- Modelled from the spec:
`visibleColumnFromColumn(lineText, column, tabSize)` walks the line's
characters from its start up to `column` (i.e. the first `column - 1`
units), accumulating visible width from 0. -/
def visibleColumnFromColumn (lineContent : LineContent) (column tabSize : Nat) : Nat :=
  visibleWidthTake tabSize lineContent (column - 1) 0

/-- Helper for `columnFromVisibleColumn2`: walk the code units keeping the
current raw column `col` and its visible column `acc`; stop (returning the
current raw column) as soon as consuming the next unit would exceed the
target, so the result is the greatest raw column whose visible column does
not exceed the target (the spec's round-down tie policy), clamped to the
line's max column by running off the end of the list. -/
def columnFromVisibleColumnAux (tabSize : Nat) : LineContent → Int → Nat → Nat → Nat
  | [], _, col, _ => col
  | c :: rest, target, col, acc =>
    let after := visibleStep tabSize acc c
    if target < (after : Int) then col
    else columnFromVisibleColumnAux tabSize rest target (col + 1) after

/-- Modelled from the spec:
`columnFromVisibleColumn(config, lineText, targetVisibleColumn)`, the
inverse mapping, rounding down inside a tab's expansion and clamped to
`[minColumn, maxColumn]` (the `2` suffix names the model-level wrapper of
the source, which performs that clamping). -/
def columnFromVisibleColumn2 (tabSize : Nat) (b : Buffer) (lineNumber : Nat)
    (visibleColumn : Int) : Nat :=
  columnFromVisibleColumnAux tabSize (getLineContent b lineNumber) visibleColumn 1 0

end CursorColumns

/-- UTF-16 high surrogate predicate. -/
def isHighSurrogate (c : Nat) : Bool := decide (0xD800 ≤ c) && decide (c ≤ 0xDBFF)

/-- UTF-16 low surrogate predicate. -/
def isLowSurrogate (c : Nat) : Bool := decide (0xDC00 ≤ c) && decide (c ≤ 0xDFFF)

/-- Whether the code unit at 0-based index `i` is a high surrogate
(false when out of range). -/
def isHighSurrogateAt (s : LineContent) (i : Nat) : Bool :=
  (s.get? i).elim false isHighSurrogate

/-- Whether the code unit at 0-based index `i` is a low surrogate
(false when out of range). -/
def isLowSurrogateAt (s : LineContent) (i : Nat) : Bool :=
  (s.get? i).elim false isLowSurrogate

/-- Modelled from the spec: `strings.prevCharLength(str, offset)`, the code
unit length of the logical character ending just before 0-based offset
`offset` — 2 when the two units ending there form a surrogate pair
(multi-code-unit characters move atomically), else 1. -/
def prevCharLength (s : LineContent) (offset : Nat) : Nat :=
  if 2 ≤ offset ∧ isLowSurrogateAt s (offset - 1) = true ∧ isHighSurrogateAt s (offset - 2) = true
  then 2 else 1

/-- Modelled from the spec: `strings.nextCharLength(str, offset)`, the code
unit length of the logical character starting at 0-based offset `offset` —
2 when it starts a surrogate pair, else 1. -/
def nextCharLength (s : LineContent) (offset : Nat) : Nat :=
  if isHighSurrogateAt s offset = true ∧ isLowSurrogateAt s (offset + 1) = true
  then 2 else 1

/-- A raw column (1-based) is a logical character boundary when it does not
fall strictly between the two units of a surrogate pair. -/
def isCharBoundary (s : LineContent) (column : Nat) : Bool :=
  !(decide (2 ≤ column) && isHighSurrogateAt s (column - 2) && isLowSurrogateAt s (column - 1))

/-- Source class `Position`: a 1-based (lineNumber, column) pair. -/
structure Position where
  lineNumber : Nat
  column : Nat
deriving DecidableEq

/-- Line-major position order (`Position.isBeforeOrEqual` of the source's
position module, modelled from the spec's "normalized into start ≤ end
order"). -/
def Position.isBeforeOrEqual (a b : Position) : Bool :=
  decide (a.lineNumber < b.lineNumber) ||
    (decide (a.lineNumber = b.lineNumber) && decide (a.column ≤ b.column))

/-- Source class `CursorPosition`: a position plus the leftover visible
columns carried by vertical movement. -/
structure CursorPosition where
  lineNumber : Nat
  column : Nat
  leftoverVisibleColumns : Int
deriving DecidableEq

/-- Modelled from the spec: `SingleCursorState` (from the cursor-common
module, not in the snapshot) — anchor position with its leftover, floating
end position with its leftover, and the sticky end-of-line flag `isEnd`.
The spec models the anchor as a `Position` ("an ordered pair of Positions:
an anchor (`selectionStart`) and a floating end (`position`)"); a state
with anchor = position is a bare caret. -/
structure SingleCursorState where
  selectionStart : Position
  selectionStartLeftoverVisibleColumns : Int
  position : Position
  leftoverVisibleColumns : Int
  isEnd : Bool
deriving DecidableEq

namespace SingleCursorState

/-- Modelled from the spec: a state holds a (non-empty) selection exactly
when the anchor differs from the floating end. -/
def hasSelection (s : SingleCursorState) : Bool :=
  decide (s.selectionStart ≠ s.position)

/-- Modelled from the spec: the selection's normalized start (the earlier
of anchor and floating end in position order); `selection.startLineNumber`
/ `selection.startColumn` of the source. -/
def selectionStartPos (s : SingleCursorState) : Position :=
  if s.position.isBeforeOrEqual s.selectionStart then s.position else s.selectionStart

/-- Modelled from the spec: the selection's normalized end (the later of
anchor and floating end in position order); `selection.endLineNumber` /
`selection.endColumn` of the source. -/
def selectionEndPos (s : SingleCursorState) : Position :=
  if s.position.isBeforeOrEqual s.selectionStart then s.selectionStart else s.position

/-- Modelled from the spec: `SingleCursorState.move` — in selection mode
only the floating end moves and the anchor is preserved; otherwise both
anchor and end collapse to the destination.  The source passes `isEnd`
explicitly at the sticky call sites and omits it (default `false`)
elsewhere; here it is always explicit. -/
def move (s : SingleCursorState) (inSelectionMode : Bool) (lineNumber column : Nat)
    (leftoverVisibleColumns : Int) (isEnd : Bool) : SingleCursorState :=
  if inSelectionMode then
    { s with position := ⟨lineNumber, column⟩,
             leftoverVisibleColumns := leftoverVisibleColumns,
             isEnd := isEnd }
  else
    ⟨⟨lineNumber, column⟩, leftoverVisibleColumns,
      ⟨lineNumber, column⟩, leftoverVisibleColumns, isEnd⟩

end SingleCursorState

namespace MoveOperations

/-- Source `MoveOperations.leftPosition`: one logical character left, with
wrap to the end of the previous line and clamping at the buffer start. -/
def leftPosition (b : Buffer) (lineNumber column : Nat) : Position :=
  if getLineMinColumn b lineNumber < column then
    ⟨lineNumber, column - prevCharLength (getLineContent b lineNumber) (column - 1)⟩
  else if 1 < lineNumber then
    ⟨lineNumber - 1, getLineMaxColumn b (lineNumber - 1)⟩
  else
    ⟨lineNumber, column⟩

/-- Source `MoveOperations.left`: `leftPosition` wrapped in a
`CursorPosition` with leftover 0. -/
def left (tabSize : Nat) (b : Buffer) (lineNumber column : Nat) : CursorPosition :=
  let pos := leftPosition b lineNumber column
  ⟨pos.lineNumber, pos.column, 0⟩

/-- Source `MoveOperations.moveLeft`: a plain move with a selection
collapses to the selection's start; otherwise the raw column is first moved
by `noOfColumns - 1` and one logical left step is applied. -/
def moveLeft (tabSize : Nat) (b : Buffer) (cursor : SingleCursorState)
    (inSelectionMode : Bool) (noOfColumns : Nat) : SingleCursorState :=
  let lc : Nat × Nat :=
    if cursor.hasSelection = true ∧ inSelectionMode = false then
      ((cursor.selectionStartPos).lineNumber, (cursor.selectionStartPos).column)
    else
      let r := left tabSize b cursor.position.lineNumber
        (cursor.position.column - (noOfColumns - 1))
      (r.lineNumber, r.column)
  cursor.move inSelectionMode lc.1 lc.2 0 false

/-- Source `MoveOperations.rightPosition`: one logical character right,
with wrap to the start of the next line and clamping at the buffer end. -/
def rightPosition (b : Buffer) (lineNumber column : Nat) : Position :=
  if column < getLineMaxColumn b lineNumber then
    ⟨lineNumber, column + nextCharLength (getLineContent b lineNumber) (column - 1)⟩
  else if lineNumber < getLineCount b then
    ⟨lineNumber + 1, getLineMinColumn b (lineNumber + 1)⟩
  else
    ⟨lineNumber, column⟩

/-- Source `MoveOperations.right`: `rightPosition` wrapped in a
`CursorPosition` with leftover 0. -/
def right (tabSize : Nat) (b : Buffer) (lineNumber column : Nat) : CursorPosition :=
  let pos := rightPosition b lineNumber column
  ⟨pos.lineNumber, pos.column, 0⟩

/-- Source `MoveOperations.moveRight`: a plain move with a selection
collapses to the selection's end; otherwise the raw column is first moved
by `noOfColumns - 1` and one logical right step is applied. -/
def moveRight (tabSize : Nat) (b : Buffer) (cursor : SingleCursorState)
    (inSelectionMode : Bool) (noOfColumns : Nat) : SingleCursorState :=
  let lc : Nat × Nat :=
    if cursor.hasSelection = true ∧ inSelectionMode = false then
      ((cursor.selectionEndPos).lineNumber, (cursor.selectionEndPos).column)
    else
      let r := right tabSize b cursor.position.lineNumber
        (cursor.position.column + (noOfColumns - 1))
      (r.lineNumber, r.column)
  cursor.move inSelectionMode lc.1 lc.2 0 false

/-- Source `MoveOperations.down`: the vertical step by `count` lines — the
desired visible column is the current visible column plus the incoming
leftover; past the last line the line number is clamped and the column
snapped (to the max column when `allowMoveOnLastLine`, else bounded by it);
otherwise the column realizes the desired visible column; the outgoing
leftover is the desired visible column minus the visible column attained. -/
def down (tabSize : Nat) (b : Buffer) (lineNumber column : Nat)
    (leftoverVisibleColumns : Int) (count : Nat) (allowMoveOnLastLine : Bool) :
    CursorPosition :=
  let currentVisibleColumn : Int :=
    (CursorColumns.visibleColumnFromColumn (getLineContent b lineNumber) column tabSize : Int)
      + leftoverVisibleColumns
  let lineCount := getLineCount b
  let l2 := lineNumber + count
  if lineCount < l2 then
    let col := if allowMoveOnLastLine then getLineMaxColumn b lineCount
               else min (getLineMaxColumn b lineCount) column
    ⟨lineCount, col,
      currentVisibleColumn
        - (CursorColumns.visibleColumnFromColumn (getLineContent b lineCount) col tabSize : Int)⟩
  else
    let col := CursorColumns.columnFromVisibleColumn2 tabSize b l2 currentVisibleColumn
    ⟨l2, col,
      currentVisibleColumn
        - (CursorColumns.visibleColumnFromColumn (getLineContent b l2) col tabSize : Int)⟩

/-- Source `MoveOperations.moveDown`: a plain move with a selection starts
from the selection's end; a sticky-end cursor replaces the input column by
`getLineMaxColumn(lineNumber + 1)` and forces the returned column back to
that value, keeping the sticky flag. -/
def moveDown (tabSize : Nat) (b : Buffer) (cursor : SingleCursorState)
    (inSelectionMode : Bool) (linesCount : Nat) : SingleCursorState :=
  let lc : Nat × Nat :=
    if cursor.hasSelection = true ∧ inSelectionMode = false then
      ((cursor.selectionEndPos).lineNumber, (cursor.selectionEndPos).column)
    else
      (cursor.position.lineNumber, cursor.position.column)
  let column := if cursor.isEnd then getLineMaxColumn b (lc.1 + 1) else lc.2
  let r := down tabSize b lc.1 column cursor.leftoverVisibleColumns linesCount true
  cursor.move inSelectionMode r.lineNumber (if cursor.isEnd then column else r.column)
    r.leftoverVisibleColumns cursor.isEnd

/-- Source `MoveOperations.up`: the vertical step by `count` lines upward —
symmetric to `down`, clamping at line 1 (column snapped to the min column
when `allowMoveOnFirstLine`, else bounded by the max column). -/
def up (tabSize : Nat) (b : Buffer) (lineNumber column : Nat)
    (leftoverVisibleColumns : Int) (count : Nat) (allowMoveOnFirstLine : Bool) :
    CursorPosition :=
  let currentVisibleColumn : Int :=
    (CursorColumns.visibleColumnFromColumn (getLineContent b lineNumber) column tabSize : Int)
      + leftoverVisibleColumns
  let l2 := lineNumber - count
  if l2 < 1 then
    let col := if allowMoveOnFirstLine then getLineMinColumn b 1
               else min (getLineMaxColumn b 1) column
    ⟨1, col,
      currentVisibleColumn
        - (CursorColumns.visibleColumnFromColumn (getLineContent b 1) col tabSize : Int)⟩
  else
    let col := CursorColumns.columnFromVisibleColumn2 tabSize b l2 currentVisibleColumn
    ⟨l2, col,
      currentVisibleColumn
        - (CursorColumns.visibleColumnFromColumn (getLineContent b l2) col tabSize : Int)⟩

/-- Source `MoveOperations.moveUp`: a plain move with a selection starts
from the selection's start; a sticky-end cursor replaces the input column
by `getLineMaxColumn(lineNumber - 1)` and forces the returned column back
to that value, keeping the sticky flag. -/
def moveUp (tabSize : Nat) (b : Buffer) (cursor : SingleCursorState)
    (inSelectionMode : Bool) (linesCount : Nat) : SingleCursorState :=
  let lc : Nat × Nat :=
    if cursor.hasSelection = true ∧ inSelectionMode = false then
      ((cursor.selectionStartPos).lineNumber, (cursor.selectionStartPos).column)
    else
      (cursor.position.lineNumber, cursor.position.column)
  let column := if cursor.isEnd then getLineMaxColumn b (lc.1 - 1) else lc.2
  let r := up tabSize b lc.1 column cursor.leftoverVisibleColumns linesCount true
  cursor.move inSelectionMode r.lineNumber (if cursor.isEnd then column else r.column)
    r.leftoverVisibleColumns cursor.isEnd

/-- Source `MoveOperations.moveToBeginningOfLine` (smart home): toggle
between the line's first non-blank column (falling back to the min column
on an all-blank line) and the min column. -/
def moveToBeginningOfLine (tabSize : Nat) (b : Buffer) (cursor : SingleCursorState)
    (inSelectionMode : Bool) : SingleCursorState :=
  let lineNumber := cursor.position.lineNumber
  let minColumn := getLineMinColumn b lineNumber
  let firstNonBlankColumn :=
    let f := getLineFirstNonWhitespaceColumn b lineNumber
    if f = 0 then minColumn else f
  let column :=
    if cursor.position.column = firstNonBlankColumn then minColumn else firstNonBlankColumn
  cursor.move inSelectionMode lineNumber column 0 false

/-- Source `MoveOperations.moveToEndOfLine`: move to the current line's max
column with leftover 0, setting the sticky end-of-line flag. -/
def moveToEndOfLine (tabSize : Nat) (b : Buffer) (cursor : SingleCursorState)
    (inSelectionMode : Bool) : SingleCursorState :=
  let lineNumber := cursor.position.lineNumber
  let maxColumn := getLineMaxColumn b lineNumber
  cursor.move inSelectionMode lineNumber maxColumn 0 true

/-- Checked variant of `down`: identical computation, but every buffer
access goes through the checked accessors, so an out-of-range line number
surfaces as `none`. -/
def downChecked (tabSize : Nat) (b : Buffer) (lineNumber column : Nat)
    (leftoverVisibleColumns : Int) (count : Nat) (allowMoveOnLastLine : Bool) :
    Option CursorPosition := do
  let content ← getLineContentChecked b lineNumber
  let currentVisibleColumn : Int :=
    (CursorColumns.visibleColumnFromColumn content column tabSize : Int) + leftoverVisibleColumns
  let lineCount := getLineCount b
  let l2 := lineNumber + count
  if lineCount < l2 then
    let mc ← getLineMaxColumnChecked b lineCount
    let col := if allowMoveOnLastLine then mc else min mc column
    let c2 ← getLineContentChecked b lineCount
    pure ⟨lineCount, col,
      currentVisibleColumn - (CursorColumns.visibleColumnFromColumn c2 col tabSize : Int)⟩
  else
    let c2 ← getLineContentChecked b l2
    let col := CursorColumns.columnFromVisibleColumnAux tabSize c2 currentVisibleColumn 1 0
    pure ⟨l2, col,
      currentVisibleColumn - (CursorColumns.visibleColumnFromColumn c2 col tabSize : Int)⟩

/-- Checked variant of `up`: identical computation through the checked
accessors. -/
def upChecked (tabSize : Nat) (b : Buffer) (lineNumber column : Nat)
    (leftoverVisibleColumns : Int) (count : Nat) (allowMoveOnFirstLine : Bool) :
    Option CursorPosition := do
  let content ← getLineContentChecked b lineNumber
  let currentVisibleColumn : Int :=
    (CursorColumns.visibleColumnFromColumn content column tabSize : Int) + leftoverVisibleColumns
  let l2 := lineNumber - count
  if l2 < 1 then
    let mc ← getLineMaxColumnChecked b 1
    let col := if allowMoveOnFirstLine then getLineMinColumn b 1 else min mc column
    let c2 ← getLineContentChecked b 1
    pure ⟨1, col,
      currentVisibleColumn - (CursorColumns.visibleColumnFromColumn c2 col tabSize : Int)⟩
  else
    let c2 ← getLineContentChecked b l2
    let col := CursorColumns.columnFromVisibleColumnAux tabSize c2 currentVisibleColumn 1 0
    pure ⟨l2, col,
      currentVisibleColumn - (CursorColumns.visibleColumnFromColumn c2 col tabSize : Int)⟩

/-- Checked variant of `moveDown`: every buffer access (in particular the
sticky-end query `getLineMaxColumn(lineNumber + 1)`) goes through the
checked accessors. -/
def moveDownChecked (tabSize : Nat) (b : Buffer) (cursor : SingleCursorState)
    (inSelectionMode : Bool) (linesCount : Nat) : Option SingleCursorState := do
  let lc : Nat × Nat :=
    if cursor.hasSelection = true ∧ inSelectionMode = false then
      ((cursor.selectionEndPos).lineNumber, (cursor.selectionEndPos).column)
    else
      (cursor.position.lineNumber, cursor.position.column)
  let column ← if cursor.isEnd then getLineMaxColumnChecked b (lc.1 + 1) else pure lc.2
  let r ← downChecked tabSize b lc.1 column cursor.leftoverVisibleColumns linesCount true
  pure (cursor.move inSelectionMode r.lineNumber (if cursor.isEnd then column else r.column)
    r.leftoverVisibleColumns cursor.isEnd)

/-- Checked variant of `moveUp`: every buffer access (in particular the
sticky-end query `getLineMaxColumn(lineNumber - 1)`) goes through the
checked accessors. -/
def moveUpChecked (tabSize : Nat) (b : Buffer) (cursor : SingleCursorState)
    (inSelectionMode : Bool) (linesCount : Nat) : Option SingleCursorState := do
  let lc : Nat × Nat :=
    if cursor.hasSelection = true ∧ inSelectionMode = false then
      ((cursor.selectionStartPos).lineNumber, (cursor.selectionStartPos).column)
    else
      (cursor.position.lineNumber, cursor.position.column)
  let column ← if cursor.isEnd then getLineMaxColumnChecked b (lc.1 - 1) else pure lc.2
  let r ← upChecked tabSize b lc.1 column cursor.leftoverVisibleColumns linesCount true
  pure (cursor.move inSelectionMode r.lineNumber (if cursor.isEnd then column else r.column)
    r.leftoverVisibleColumns cursor.isEnd)

end MoveOperations

/-- Follows the spec's words (for comparison with `moveLeft`): the
one-logical-character left step applied `n` times from a position. -/
def iteratedLeftSteps (b : Buffer) (n : Nat) (p : Position) : Position :=
  match n with
  | 0 => p
  | n + 1 => iteratedLeftSteps b n (MoveOperations.leftPosition b p.lineNumber p.column)

/-- Follows the spec's words (for comparison with `moveRight`): the
one-logical-character right step applied `n` times from a position. -/
def iteratedRightSteps (b : Buffer) (n : Nat) (p : Position) : Position :=
  match n with
  | 0 => p
  | n + 1 => iteratedRightSteps b n (MoveOperations.rightPosition b p.lineNumber p.column)

/-!
Helper lemmas about the coordinate translator: the visible-column map is
strictly increasing in the raw column, and the spec's round-down inverse
`columnFromVisibleColumnAux` is a one-sided inverse of it.
-/

namespace CursorColumns

lemma lt_visibleStep (ts acc c : Nat) (h : 1 ≤ ts) : acc < visibleStep ts acc c := by
  unfold visibleStep nextRenderTabStop
  split
  · have hm : acc % ts < ts := Nat.mod_lt acc (by omega)
    omega
  · omega

lemma le_visibleWidthTake (ts : Nat) (h : 1 ≤ ts) :
    ∀ (xs : LineContent) (k acc : Nat), acc ≤ visibleWidthTake ts xs k acc := by
  intro xs
  induction xs with
  | nil => intro k acc; cases k <;> simp [visibleWidthTake]
  | cons c rest ih =>
    intro k acc
    cases k with
    | zero => simp [visibleWidthTake]
    | succ k =>
      have h1 : acc ≤ visibleStep ts acc c := Nat.le_of_lt (lt_visibleStep ts acc c h)
      have h2 := ih k (visibleStep ts acc c)
      calc acc ≤ visibleStep ts acc c := h1
        _ ≤ visibleWidthTake ts rest k (visibleStep ts acc c) := h2
        _ = visibleWidthTake ts (c :: rest) (k + 1) acc := rfl

lemma columnFromVisibleColumnAux_visibleWidthTake (ts : Nat) (h : 1 ≤ ts) :
    ∀ (xs : LineContent) (k acc col : Nat), k ≤ xs.length →
      columnFromVisibleColumnAux ts xs ((visibleWidthTake ts xs k acc : Nat) : Int) col acc
        = col + k := by
  intro xs
  induction xs with
  | nil =>
    intro k acc col hk
    simp only [List.length_nil, Nat.le_zero] at hk
    subst hk
    simp [columnFromVisibleColumnAux, visibleWidthTake]
  | cons c rest ih =>
    intro k acc col hk
    cases k with
    | zero =>
      have hlt : ((visibleWidthTake ts (c :: rest) 0 acc : Nat) : Int)
          < ((visibleStep ts acc c : Nat) : Int) := by
        have := lt_visibleStep ts acc c h
        simp [visibleWidthTake]
        omega
      simp only [columnFromVisibleColumnAux]
      rw [if_pos hlt]
      omega
    | succ k =>
      have hle : visibleStep ts acc c
          ≤ visibleWidthTake ts (c :: rest) (k + 1) acc :=
        le_visibleWidthTake ts h rest k (visibleStep ts acc c)
      have hnot : ¬ ((visibleWidthTake ts (c :: rest) (k + 1) acc : Nat) : Int)
          < ((visibleStep ts acc c : Nat) : Int) := by
        push_neg
        exact_mod_cast hle
      simp only [columnFromVisibleColumnAux]
      rw [if_neg hnot]
      have := ih k (visibleStep ts acc c) (col + 1) (by simpa using hk)
      have heq : visibleWidthTake ts (c :: rest) (k + 1) acc
          = visibleWidthTake ts rest k (visibleStep ts acc c) := rfl
      rw [heq]
      rw [this]
      omega

lemma columnFromVisibleColumnAux_le (ts : Nat) (h : 1 ≤ ts) :
    ∀ (xs : LineContent) (t : Int) (col acc : Nat), (acc : Int) ≤ t →
      ∃ k, k ≤ xs.length ∧ columnFromVisibleColumnAux ts xs t col acc = col + k ∧
        ((visibleWidthTake ts xs k acc : Nat) : Int) ≤ t := by
  intro xs
  induction xs with
  | nil =>
    intro t col acc hacc
    exact ⟨0, by simp, by simp [columnFromVisibleColumnAux], by simpa [visibleWidthTake] using hacc⟩
  | cons c rest ih =>
    intro t col acc hacc
    by_cases ht : t < ((visibleStep ts acc c : Nat) : Int)
    · refine ⟨0, by simp, ?_, by simpa [visibleWidthTake] using hacc⟩
      simp only [columnFromVisibleColumnAux]
      rw [if_pos ht]
      omega
    · push_neg at ht
      obtain ⟨k, hk, heq, hle⟩ := ih t (col + 1) (visibleStep ts acc c) ht
      refine ⟨k + 1, by simpa using hk, ?_, ?_⟩
      · simp only [columnFromVisibleColumnAux]
        rw [if_neg (by push_neg; exact ht)]
        rw [heq]
        omega
      · simpa [visibleWidthTake] using hle

lemma columnFromVisibleColumnAux_visible (ts : Nat) (s : LineContent) (c : Nat)
    (hts : 1 ≤ ts) (hc1 : 1 ≤ c) (hc2 : c ≤ s.length + 1) :
    columnFromVisibleColumnAux ts s ((visibleColumnFromColumn s c ts : Nat) : Int) 1 0 = c := by
  have := columnFromVisibleColumnAux_visibleWidthTake ts hts s (c - 1) 0 1 (by omega)
  unfold visibleColumnFromColumn
  rw [this]
  omega

lemma visible_columnFromVisibleColumnAux_le (ts : Nat) (s : LineContent) (t : Int)
    (hts : 1 ≤ ts) (ht : 0 ≤ t) :
    ((visibleColumnFromColumn s (columnFromVisibleColumnAux ts s t 1 0) ts : Nat) : Int) ≤ t := by
  obtain ⟨k, hk, heq, hle⟩ :=
    columnFromVisibleColumnAux_le ts hts s t 1 0 (by exact_mod_cast ht)
  rw [heq]
  unfold visibleColumnFromColumn
  simpa using hle

end CursorColumns

/-!
Helper lemmas about surrogate pairs and logical character boundaries: the
surrogate ranges are disjoint, and the one-character steps of
`leftPosition` / `rightPosition` are mutually inverse on boundaries.
-/

lemma isHighSurrogateAt_not_low {s : LineContent} {i : Nat}
    (h : isHighSurrogateAt s i = true) : isLowSurrogateAt s i = false := by
  unfold isHighSurrogateAt at h
  unfold isLowSurrogateAt
  cases hg : s.get? i with
  | none => simp [hg]
  | some c =>
    rw [hg] at h
    simp only [Option.elim] at h ⊢
    unfold isHighSurrogate at h
    unfold isLowSurrogate
    simp only [Bool.and_eq_true, decide_eq_true_eq] at h
    simp only [Bool.and_eq_false_iff, decide_eq_false_iff_not]
    left
    omega

lemma isLowSurrogateAt_not_high {s : LineContent} {i : Nat}
    (h : isLowSurrogateAt s i = true) : isHighSurrogateAt s i = false := by
  unfold isLowSurrogateAt at h
  unfold isHighSurrogateAt
  cases hg : s.get? i with
  | none => simp [hg]
  | some c =>
    rw [hg] at h
    simp only [Option.elim] at h ⊢
    unfold isLowSurrogate at h
    unfold isHighSurrogate
    simp only [Bool.and_eq_true, decide_eq_true_eq] at h
    simp only [Bool.and_eq_false_iff, decide_eq_false_iff_not]
    right
    omega

lemma isCharBoundary_iff {s : LineContent} {c : Nat} :
    isCharBoundary s c = true ↔
      ¬(2 ≤ c ∧ isHighSurrogateAt s (c - 2) = true ∧ isLowSurrogateAt s (c - 1) = true) := by
  unfold isCharBoundary
  constructor
  · intro h hcon
    obtain ⟨h1, h2, h3⟩ := hcon
    rw [decide_eq_true h1, h2, h3] at h
    simp at h
  · intro h
    by_cases h1 : 2 ≤ c
    · by_cases h2 : isHighSurrogateAt s (c - 2) = true
      · have h3 : isLowSurrogateAt s (c - 1) = false := by
          cases h3 : isLowSurrogateAt s (c - 1)
          · rfl
          · exact absurd ⟨h1, h2, h3⟩ h
        rw [h3]
        simp
      · rw [Bool.not_eq_true] at h2
        rw [h2]
        simp
    · rw [decide_eq_false h1]
      simp

lemma isCharBoundary_one (s : LineContent) : isCharBoundary s 1 = true := by
  rw [isCharBoundary_iff]
  rintro ⟨h2, -, -⟩
  omega

lemma isCharBoundary_top (s : LineContent) : isCharBoundary s (s.length + 1) = true := by
  rw [isCharBoundary_iff]
  rintro ⟨-, -, hlow⟩
  unfold isLowSurrogateAt at hlow
  rw [show s.length + 1 - 1 = s.length by omega] at hlow
  rw [List.get?_eq_none.mpr (Nat.le_refl _)] at hlow
  simp at hlow

lemma prevCharLength_le {s : LineContent} {c : Nat} (h2 : 2 ≤ c) :
    prevCharLength s (c - 1) ≤ c - 1 := by
  unfold prevCharLength
  split
  case isTrue h =>
    obtain ⟨h1, -, -⟩ := h
    omega
  case isFalse h => omega

lemma nextCharLength_prevCharLength {s : LineContent} {c : Nat}
    (h2 : 2 ≤ c) (hb : isCharBoundary s c = true) :
    nextCharLength s (c - prevCharLength s (c - 1) - 1) = prevCharLength s (c - 1) := by
  obtain ⟨j, rfl⟩ : ∃ j, c = j + 2 := ⟨c - 2, by omega⟩
  rw [show j + 2 - 1 = j + 1 by omega]
  unfold prevCharLength
  split
  case isTrue h =>
    obtain ⟨hj, hlow, hhigh⟩ := h
    obtain ⟨m, rfl⟩ : ∃ m, j = m + 1 := ⟨j - 1, by omega⟩
    rw [show m + 1 + 1 - 1 = m + 1 by omega] at hlow
    rw [show m + 1 + 1 - 2 = m by omega] at hhigh
    rw [show m + 1 + 2 - 2 - 1 = m by omega]
    unfold nextCharLength
    rw [if_pos ⟨hhigh, hlow⟩]
  case isFalse h =>
    rw [show j + 2 - 1 - 1 = j by omega]
    unfold nextCharLength
    rw [if_neg]
    rintro ⟨hhigh, hlow⟩
    rw [isCharBoundary_iff] at hb
    exact hb ⟨by omega, by rw [show j + 2 - 2 = j by omega]; exact hhigh,
      by rw [show j + 2 - 1 = j + 1 by omega]; exact hlow⟩

lemma prevCharLength_nextCharLength {s : LineContent} {c : Nat}
    (h1 : 1 ≤ c) (hb : isCharBoundary s c = true) :
    prevCharLength s (c + nextCharLength s (c - 1) - 1) = nextCharLength s (c - 1) := by
  obtain ⟨j, rfl⟩ : ∃ j, c = j + 1 := ⟨c - 1, by omega⟩
  rw [show j + 1 - 1 = j by omega]
  unfold nextCharLength
  split
  case isTrue h =>
    obtain ⟨hhigh, hlow⟩ := h
    rw [show j + 1 + 2 - 1 = j + 2 by omega]
    unfold prevCharLength
    rw [if_pos]
    refine ⟨by omega, ?_, ?_⟩
    · rw [show j + 2 - 1 = j + 1 by omega]; exact hlow
    · rw [show j + 2 - 2 = j by omega]; exact hhigh
  case isFalse h =>
    rw [show j + 1 + 1 - 1 = j + 1 by omega]
    unfold prevCharLength
    rw [if_neg]
    rintro ⟨hj, hlow, hhigh⟩
    obtain ⟨m, rfl⟩ : ∃ m, j = m + 1 := ⟨j - 1, by omega⟩
    rw [isCharBoundary_iff] at hb
    refine hb ⟨by omega, ?_, ?_⟩
    · rw [show m + 1 + 1 - 2 = m by omega]
      rw [show m + 1 + 1 - 2 = m by omega] at hhigh
      exact hhigh
    · rw [show m + 1 + 1 - 1 = m + 1 by omega]
      rw [show m + 1 + 1 - 1 = m + 1 by omega] at hlow
      exact hlow

lemma isCharBoundary_left {s : LineContent} {c : Nat} (h2 : 2 ≤ c)
    (hb : isCharBoundary s c = true) :
    isCharBoundary s (c - prevCharLength s (c - 1)) = true := by
  obtain ⟨j, rfl⟩ : ∃ j, c = j + 2 := ⟨c - 2, by omega⟩
  rw [show j + 2 - 1 = j + 1 by omega]
  unfold prevCharLength
  split
  case isTrue h =>
    obtain ⟨hj, hlow, hhigh⟩ := h
    obtain ⟨m, rfl⟩ : ∃ m, j = m + 1 := ⟨j - 1, by omega⟩
    rw [show m + 1 + 1 - 2 = m by omega] at hhigh
    rw [show m + 1 + 2 - 2 = m + 1 by omega]
    rw [isCharBoundary_iff]
    rintro ⟨-, -, hlowm⟩
    rw [show m + 1 - 1 = m by omega] at hlowm
    rw [isHighSurrogateAt_not_low hhigh] at hlowm
    exact Bool.false_ne_true hlowm
  case isFalse h =>
    rw [show j + 2 - 1 = j + 1 by omega]
    rw [isCharBoundary_iff]
    rintro ⟨hj1, hhigh, hlow⟩
    rw [show j + 1 - 2 = j - 1 by omega] at hhigh
    rw [show j + 1 - 1 = j by omega] at hlow
    exact h ⟨by omega, hlow, hhigh⟩

lemma isCharBoundary_right {s : LineContent} {c : Nat} (h1 : 1 ≤ c)
    (hb : isCharBoundary s c = true) :
    isCharBoundary s (c + nextCharLength s (c - 1)) = true := by
  obtain ⟨j, rfl⟩ : ∃ j, c = j + 1 := ⟨c - 1, by omega⟩
  rw [show j + 1 - 1 = j by omega]
  unfold nextCharLength
  split
  case isTrue h =>
    obtain ⟨hhigh, hlow⟩ := h
    rw [isCharBoundary_iff]
    rintro ⟨-, hhigh2, -⟩
    rw [show j + 1 + 2 - 2 = j + 1 by omega] at hhigh2
    rw [isLowSurrogateAt_not_high hlow] at hhigh2
    exact Bool.false_ne_true hhigh2
  case isFalse h =>
    rw [isCharBoundary_iff]
    rintro ⟨-, hhigh, hlow⟩
    rw [show j + 1 + 1 - 2 = j by omega] at hhigh
    rw [show j + 1 + 1 - 1 = j + 1 by omega] at hlow
    exact h ⟨hhigh, hlow⟩

/-!
Branch equations for the vertical steps.
-/

namespace MoveOperations

lemma down_not_clamped (ts : Nat) (b : Buffer) (l c : Nat) (lo : Int) (count : Nat)
    (allow : Bool) (h : l + count ≤ getLineCount b) :
    down ts b l c lo count allow =
      ⟨l + count,
       CursorColumns.columnFromVisibleColumn2 ts b (l + count)
         ((CursorColumns.visibleColumnFromColumn (getLineContent b l) c ts : Int) + lo),
       ((CursorColumns.visibleColumnFromColumn (getLineContent b l) c ts : Int) + lo)
         - (CursorColumns.visibleColumnFromColumn (getLineContent b (l + count))
             (CursorColumns.columnFromVisibleColumn2 ts b (l + count)
               ((CursorColumns.visibleColumnFromColumn (getLineContent b l) c ts : Int) + lo))
             ts : Int)⟩ := by
  simp only [down]
  rw [if_neg (by omega)]

lemma up_not_clamped (ts : Nat) (b : Buffer) (l c : Nat) (lo : Int) (count : Nat)
    (allow : Bool) (h : 1 ≤ l - count) :
    up ts b l c lo count allow =
      ⟨l - count,
       CursorColumns.columnFromVisibleColumn2 ts b (l - count)
         ((CursorColumns.visibleColumnFromColumn (getLineContent b l) c ts : Int) + lo),
       ((CursorColumns.visibleColumnFromColumn (getLineContent b l) c ts : Int) + lo)
         - (CursorColumns.visibleColumnFromColumn (getLineContent b (l - count))
             (CursorColumns.columnFromVisibleColumn2 ts b (l - count)
               ((CursorColumns.visibleColumnFromColumn (getLineContent b l) c ts : Int) + lo))
             ts : Int)⟩ := by
  simp only [up]
  rw [if_neg (by omega)]

end MoveOperations

/-!
Claim theorems.
-/

/-- Claim C1, counterexample: the claim states that a sticky-end `moveDown`
recomputes the input column as the max column of the line the cursor
currently occupies and returns that column.  On the buffer with lines
`"ab"` and `"abcde"`, a sticky cursor at (1,3) moved down one line (the
destination line 2 is reached without boundary-clamping) returns column 6,
which is not the current line's max column 3. -/
theorem claim_C1_counterexample :
    (MoveOperations.moveDown 4 [[97, 98], [97, 98, 99, 100, 101]]
        ⟨⟨1, 3⟩, 0, ⟨1, 3⟩, 0, true⟩ false 1).position.column ≠
      getLineMaxColumn [[97, 98], [97, 98, 99, 100, 101]] 1 := by
  decide

/-- Claim C1, amended: for a sticky-end cursor (no selection being escaped),
`moveDown` recomputes the input column as the max column of the line
immediately BELOW the cursor's line (`lineNumber + 1`), and `moveUp` as the
max column of the line immediately ABOVE (`lineNumber - 1`); the returned
cursor's column always equals that recomputed value (the vertical step's
own result column is discarded) and `isEndSticky` remains set. -/
theorem claim_C1_amended :
    (∀ (ts : Nat) (b : Buffer) (cursor : SingleCursorState) (inSel : Bool) (count : Nat),
      cursor.isEnd = true →
      (cursor.hasSelection = false ∨ inSel = true) →
      cursor.position.lineNumber + 1 ≤ getLineCount b →
      (MoveOperations.moveDown ts b cursor inSel count).position.column
          = getLineMaxColumn b (cursor.position.lineNumber + 1) ∧
        (MoveOperations.moveDown ts b cursor inSel count).isEnd = true) ∧
    (∀ (ts : Nat) (b : Buffer) (cursor : SingleCursorState) (inSel : Bool) (count : Nat),
      cursor.isEnd = true →
      (cursor.hasSelection = false ∨ inSel = true) →
      2 ≤ cursor.position.lineNumber →
      cursor.position.lineNumber ≤ getLineCount b →
      (MoveOperations.moveUp ts b cursor inSel count).position.column
          = getLineMaxColumn b (cursor.position.lineNumber - 1) ∧
        (MoveOperations.moveUp ts b cursor inSel count).isEnd = true) := by
  constructor
  · intro ts b cursor inSel count hEnd hSel hval
    cases inSel with
    | true => simp [MoveOperations.moveDown, hEnd, SingleCursorState.move]
    | false =>
      have hselF : cursor.hasSelection = false := by
        rcases hSel with h | h
        · exact h
        · simp at h
      simp [MoveOperations.moveDown, hEnd, hselF, SingleCursorState.move]
  · intro ts b cursor inSel count hEnd hSel hval1 hval2
    cases inSel with
    | true => simp [MoveOperations.moveUp, hEnd, SingleCursorState.move]
    | false =>
      have hselF : cursor.hasSelection = false := by
        rcases hSel with h | h
        · exact h
        · simp at h
      simp [MoveOperations.moveUp, hEnd, hselF, SingleCursorState.move]

/-- Claim C1, witness for the amended theorem: a concrete sticky cursor at
(2,1) in a three-line buffer, moved down and up. -/
theorem claim_C1_amended_witness :
    ((MoveOperations.moveDown 4 [[97], [97, 98], [97, 98, 99]]
        ⟨⟨2, 1⟩, 0, ⟨2, 1⟩, 0, true⟩ false 1).position.column
        = getLineMaxColumn [[97], [97, 98], [97, 98, 99]] 3 ∧
      (MoveOperations.moveDown 4 [[97], [97, 98], [97, 98, 99]]
        ⟨⟨2, 1⟩, 0, ⟨2, 1⟩, 0, true⟩ false 1).isEnd = true) ∧
    ((MoveOperations.moveUp 4 [[97], [97, 98], [97, 98, 99]]
        ⟨⟨2, 1⟩, 0, ⟨2, 1⟩, 0, true⟩ false 1).position.column
        = getLineMaxColumn [[97], [97, 98], [97, 98, 99]] 1 ∧
      (MoveOperations.moveUp 4 [[97], [97, 98], [97, 98, 99]]
        ⟨⟨2, 1⟩, 0, ⟨2, 1⟩, 0, true⟩ false 1).isEnd = true) :=
  ⟨claim_C1_amended.1 4 [[97], [97, 98], [97, 98, 99]]
      ⟨⟨2, 1⟩, 0, ⟨2, 1⟩, 0, true⟩ false 1 rfl (Or.inl rfl) (by decide),
    claim_C1_amended.2 4 [[97], [97, 98], [97, 98, 99]]
      ⟨⟨2, 1⟩, 0, ⟨2, 1⟩, 0, true⟩ false 1 rfl (Or.inl rfl) (by decide) (by decide)⟩

/-- Claim C2, counterexample: the claim quantifies over every `moveDown`
call from a sticky cursor not clamped at the buffer boundary.  On the
buffer with lines `"a"`, `"bb"`, `"cccc"`, after `moveToEndOfLine` on
line 1 a `moveDown` with `linesCount = 2` lands (unclamped) on line 3 but
returns column 3 (the max column of line 2), not line 3's max column 5. -/
theorem claim_C2_counterexample :
    (MoveOperations.moveDown 4 [[97], [98, 98], [99, 99, 99, 99]]
        (MoveOperations.moveToEndOfLine 4 [[97], [98, 98], [99, 99, 99, 99]]
          ⟨⟨1, 1⟩, 0, ⟨1, 1⟩, 0, false⟩ false)
        false 2).position.lineNumber = 3 ∧
    (MoveOperations.moveDown 4 [[97], [98, 98], [99, 99, 99, 99]]
        (MoveOperations.moveToEndOfLine 4 [[97], [98, 98], [99, 99, 99, 99]]
          ⟨⟨1, 1⟩, 0, ⟨1, 1⟩, 0, false⟩ false)
        false 2).position.column ≠
      getLineMaxColumn [[97], [98, 98], [99, 99, 99, 99]] 3 := by
  constructor
  · decide
  · decide

/-- Claim C2, amended: `moveToEndOfLine` returns a cursor at the current
line's max column with leftover 0 and `isEndSticky` set; and every
subsequent `moveDown` with `linesCount = 1` from a sticky collapsed cursor
whose line is not the last one lands exactly on the next line's max column,
with the sticky flag and the bare-caret shape preserved (so the property
propagates through any chain of single-line `moveDown` calls, regardless of
the lengths of the lines traversed). -/
theorem claim_C2_amended :
    (∀ (ts : Nat) (b : Buffer) (cursor : SingleCursorState) (inSel : Bool),
      (MoveOperations.moveToEndOfLine ts b cursor inSel).position
          = ⟨cursor.position.lineNumber, getLineMaxColumn b cursor.position.lineNumber⟩ ∧
        (MoveOperations.moveToEndOfLine ts b cursor inSel).leftoverVisibleColumns = 0 ∧
        (MoveOperations.moveToEndOfLine ts b cursor inSel).isEnd = true) ∧
    (∀ (ts : Nat) (b : Buffer) (cursor : SingleCursorState),
      cursor.isEnd = true →
      cursor.hasSelection = false →
      cursor.position.lineNumber + 1 ≤ getLineCount b →
      (MoveOperations.moveDown ts b cursor false 1).position
          = ⟨cursor.position.lineNumber + 1,
             getLineMaxColumn b (cursor.position.lineNumber + 1)⟩ ∧
        (MoveOperations.moveDown ts b cursor false 1).isEnd = true ∧
        (MoveOperations.moveDown ts b cursor false 1).hasSelection = false) := by
  constructor
  · intro ts b cursor inSel
    cases inSel <;> simp [MoveOperations.moveToEndOfLine, SingleCursorState.move]
  · intro ts b cursor hEnd hselF hval
    have hdown := MoveOperations.down_not_clamped ts b cursor.position.lineNumber
      (getLineMaxColumn b (cursor.position.lineNumber + 1))
      cursor.leftoverVisibleColumns 1 true hval
    simp only [MoveOperations.moveDown, hEnd, hselF, Bool.false_eq_true, false_and,
      if_false, if_true, ite_false, ite_true, SingleCursorState.move]
    rw [hdown]
    simp [SingleCursorState.hasSelection]

/-- Claim C2, witness for the amended theorem: the buffer with lines
`"a"`, `"bb"`, `"cccc"`; `moveToEndOfLine` at (2,1), and a sticky
single-line `moveDown` from (1,2). -/
theorem claim_C2_amended_witness :
    ((MoveOperations.moveToEndOfLine 4 [[97], [98, 98], [99, 99, 99, 99]]
        ⟨⟨2, 1⟩, 0, ⟨2, 1⟩, 0, false⟩ false).position = ⟨2, 3⟩ ∧
      (MoveOperations.moveToEndOfLine 4 [[97], [98, 98], [99, 99, 99, 99]]
        ⟨⟨2, 1⟩, 0, ⟨2, 1⟩, 0, false⟩ false).leftoverVisibleColumns = 0 ∧
      (MoveOperations.moveToEndOfLine 4 [[97], [98, 98], [99, 99, 99, 99]]
        ⟨⟨2, 1⟩, 0, ⟨2, 1⟩, 0, false⟩ false).isEnd = true) ∧
    ((MoveOperations.moveDown 4 [[97], [98, 98], [99, 99, 99, 99]]
        ⟨⟨1, 2⟩, 0, ⟨1, 2⟩, 0, true⟩ false 1).position = ⟨2, 3⟩ ∧
      (MoveOperations.moveDown 4 [[97], [98, 98], [99, 99, 99, 99]]
        ⟨⟨1, 2⟩, 0, ⟨1, 2⟩, 0, true⟩ false 1).isEnd = true ∧
      (MoveOperations.moveDown 4 [[97], [98, 98], [99, 99, 99, 99]]
        ⟨⟨1, 2⟩, 0, ⟨1, 2⟩, 0, true⟩ false 1).hasSelection = false) :=
  ⟨claim_C2_amended.1 4 [[97], [98, 98], [99, 99, 99, 99]]
      ⟨⟨2, 1⟩, 0, ⟨2, 1⟩, 0, false⟩ false,
    claim_C2_amended.2 4 [[97], [98, 98], [99, 99, 99, 99]]
      ⟨⟨1, 2⟩, 0, ⟨1, 2⟩, 0, true⟩ rfl (by decide) (by decide)⟩

/-- Claim C3: from a sticky-end cursor whose effective position is on the
last line of the buffer, `moveDown` queries the buffer view for the max
column of line `lineCount + 1` (out of the valid range), and symmetrically
`moveUp` from line 1 queries line 0; in the total (checked) embedding,
where out-of-range accessors return an error, both moves therefore return
`none`. -/
theorem claim_C3 :
    (∀ (ts : Nat) (b : Buffer) (cursor : SingleCursorState) (inSel : Bool) (count : Nat),
      cursor.isEnd = true →
      (cursor.hasSelection = false ∨ inSel = true) →
      cursor.position.lineNumber = getLineCount b →
      1 ≤ getLineCount b →
      MoveOperations.moveDownChecked ts b cursor inSel count = none) ∧
    (∀ (ts : Nat) (b : Buffer) (cursor : SingleCursorState) (inSel : Bool) (count : Nat),
      cursor.isEnd = true →
      (cursor.hasSelection = false ∨ inSel = true) →
      cursor.position.lineNumber = 1 →
      MoveOperations.moveUpChecked ts b cursor inSel count = none) := by
  constructor
  · intro ts b cursor inSel count hEnd hSel hlast hcnt
    have hmax : getLineMaxColumnChecked b (cursor.position.lineNumber + 1) = none := by
      unfold getLineMaxColumnChecked
      rw [if_neg]
      simp only [getLineCount] at hlast
      omega
    cases inSel with
    | true => simp [MoveOperations.moveDownChecked, hEnd, hmax]
    | false =>
      have hselF : cursor.hasSelection = false := by
        rcases hSel with h | h
        · exact h
        · simp at h
      simp [MoveOperations.moveDownChecked, hEnd, hselF, hmax]
  · intro ts b cursor inSel count hEnd hSel hfirst
    have hmax : getLineMaxColumnChecked b (cursor.position.lineNumber - 1) = none := by
      unfold getLineMaxColumnChecked
      rw [if_neg]
      omega
    cases inSel with
    | true => simp [MoveOperations.moveUpChecked, hEnd, hmax]
    | false =>
      have hselF : cursor.hasSelection = false := by
        rcases hSel with h | h
        · exact h
        · simp at h
      simp [MoveOperations.moveUpChecked, hEnd, hselF, hmax]

/-- Claim C3, witness: in the single-line buffer `"a"`, a sticky cursor at
(1,1) sits both on the last line and on line 1, and both checked moves
return `none`. -/
theorem claim_C3_witness :
    MoveOperations.moveDownChecked 4 [[97]] ⟨⟨1, 1⟩, 0, ⟨1, 1⟩, 0, true⟩ false 1 = none ∧
    MoveOperations.moveUpChecked 4 [[97]] ⟨⟨1, 1⟩, 0, ⟨1, 1⟩, 0, true⟩ false 1 = none :=
  ⟨claim_C3.1 4 [[97]] ⟨⟨1, 1⟩, 0, ⟨1, 1⟩, 0, true⟩ false 1 rfl (Or.inl (by decide))
      (by decide) (by decide),
    claim_C3.2 4 [[97]] ⟨⟨1, 1⟩, 0, ⟨1, 1⟩, 0, true⟩ false 1 rfl (Or.inl (by decide))
      (by decide)⟩

/-- The one-character left step preserves logical character boundaries:
within a line by the surrogate-pair analysis, and on a wrap because a
line's max column is always a boundary. -/
lemma leftPosition_boundary (b : Buffer) (l c : Nat)
    (h : isCharBoundary (getLineContent b l) c = true) :
    isCharBoundary (getLineContent b (MoveOperations.leftPosition b l c).lineNumber)
      (MoveOperations.leftPosition b l c).column = true := by
  unfold MoveOperations.leftPosition
  by_cases h1 : getLineMinColumn b l < c
  · rw [if_pos h1]
    simp only [getLineMinColumn] at h1
    exact isCharBoundary_left (by omega) h
  · rw [if_neg h1]
    by_cases h2 : 1 < l
    · rw [if_pos h2]
      exact isCharBoundary_top _
    · rw [if_neg h2]
      exact h

/-- The one-character right step preserves logical character boundaries:
within a line by the surrogate-pair analysis, and on a wrap because a
line's min column 1 is always a boundary. -/
lemma rightPosition_boundary (b : Buffer) (l c : Nat) (hc : 1 ≤ c)
    (h : isCharBoundary (getLineContent b l) c = true) :
    isCharBoundary (getLineContent b (MoveOperations.rightPosition b l c).lineNumber)
      (MoveOperations.rightPosition b l c).column = true := by
  unfold MoveOperations.rightPosition
  by_cases h1 : c < getLineMaxColumn b l
  · rw [if_pos h1]
    exact isCharBoundary_right hc h
  · rw [if_neg h1]
    by_cases h2 : l < getLineCount b
    · rw [if_pos h2]
      exact isCharBoundary_one _
    · rw [if_neg h2]
      exact h

/-- Claim C4, counterexample: the claim states that `moveLeft` with
`noOfColumns` applies the one-character step `noOfColumns` times.  On the
buffer with lines `"ab"` and `"cd"`, `moveLeft` with `noOfColumns = 2` from
the bare caret (2,1) yields (1,3), while two iterated one-character left
steps yield (1,2): the code instead shifts the raw column by
`noOfColumns - 1` and applies the step once. -/
theorem claim_C4_counterexample :
    (MoveOperations.moveLeft 4 [[97, 98], [99, 100]]
        ⟨⟨2, 1⟩, 0, ⟨2, 1⟩, 0, false⟩ false 2).position ≠
      iteratedLeftSteps [[97, 98], [99, 100]] 2 ⟨2, 1⟩ := by
  decide

/-- Claim C4, amended: for `noOfColumns = 1` (and no selection being
escaped), `moveLeft` / `moveRight` produce exactly the position of one
logical-character step from the floating end with leftover reset to 0, and
the step never splits a multi-code-unit character (it preserves character
boundaries); for `noOfColumns > 1` the code instead shifts the raw column
by `noOfColumns - 1` code units and applies a single logical step, which is
not in general the iterated step. -/
theorem claim_C4_amended :
    ∀ (ts : Nat) (b : Buffer) (cursor : SingleCursorState) (inSel : Bool),
      (cursor.hasSelection = false ∨ inSel = true) →
      ((MoveOperations.moveLeft ts b cursor inSel 1).position
          = iteratedLeftSteps b 1 cursor.position ∧
        (MoveOperations.moveLeft ts b cursor inSel 1).leftoverVisibleColumns = 0) ∧
      ((MoveOperations.moveRight ts b cursor inSel 1).position
          = iteratedRightSteps b 1 cursor.position ∧
        (MoveOperations.moveRight ts b cursor inSel 1).leftoverVisibleColumns = 0) ∧
      (isCharBoundary (getLineContent b cursor.position.lineNumber)
            cursor.position.column = true →
        1 ≤ cursor.position.column →
        isCharBoundary
            (getLineContent b
              (MoveOperations.leftPosition b cursor.position.lineNumber
                cursor.position.column).lineNumber)
            (MoveOperations.leftPosition b cursor.position.lineNumber
              cursor.position.column).column = true ∧
          isCharBoundary
              (getLineContent b
                (MoveOperations.rightPosition b cursor.position.lineNumber
                  cursor.position.column).lineNumber)
              (MoveOperations.rightPosition b cursor.position.lineNumber
                cursor.position.column).column = true) := by
  intro ts b cursor inSel hSel
  refine ⟨?_, ?_, ?_⟩
  · cases inSel with
    | true =>
      simp [MoveOperations.moveLeft, MoveOperations.left, iteratedLeftSteps,
        SingleCursorState.move]
    | false =>
      have hselF : cursor.hasSelection = false := by
        rcases hSel with h | h
        · exact h
        · simp at h
      simp [MoveOperations.moveLeft, MoveOperations.left, iteratedLeftSteps, hselF,
        SingleCursorState.move]
  · cases inSel with
    | true =>
      simp [MoveOperations.moveRight, MoveOperations.right, iteratedRightSteps,
        SingleCursorState.move]
    | false =>
      have hselF : cursor.hasSelection = false := by
        rcases hSel with h | h
        · exact h
        · simp at h
      simp [MoveOperations.moveRight, MoveOperations.right, iteratedRightSteps, hselF,
        SingleCursorState.move]
  · intro hbd hc
    exact ⟨leftPosition_boundary b _ _ hbd, rightPosition_boundary b _ _ hc hbd⟩

/-- Claim C4, witness for the amended theorem: on the line `"a"` followed
by the surrogate pair U+1D306 and `"b"`, one-step moves from the bare caret
(1,2) step over whole characters with leftover 0. -/
theorem claim_C4_amended_witness :
    ((MoveOperations.moveLeft 4 [[97, 55348, 57094, 98]]
          ⟨⟨1, 2⟩, 0, ⟨1, 2⟩, 0, false⟩ false 1).position
        = iteratedLeftSteps [[97, 55348, 57094, 98]] 1 ⟨1, 2⟩ ∧
      (MoveOperations.moveLeft 4 [[97, 55348, 57094, 98]]
          ⟨⟨1, 2⟩, 0, ⟨1, 2⟩, 0, false⟩ false 1).leftoverVisibleColumns = 0) ∧
    ((MoveOperations.moveRight 4 [[97, 55348, 57094, 98]]
          ⟨⟨1, 2⟩, 0, ⟨1, 2⟩, 0, false⟩ false 1).position
        = iteratedRightSteps [[97, 55348, 57094, 98]] 1 ⟨1, 2⟩) ∧
    (isCharBoundary (getLineContent [[97, 55348, 57094, 98]]
          (MoveOperations.rightPosition [[97, 55348, 57094, 98]] 1 2).lineNumber)
        (MoveOperations.rightPosition [[97, 55348, 57094, 98]] 1 2).column = true) :=
  have h := claim_C4_amended 4 [[97, 55348, 57094, 98]]
    ⟨⟨1, 2⟩, 0, ⟨1, 2⟩, 0, false⟩ false (Or.inl rfl)
  ⟨⟨h.1.1, h.1.2⟩, h.2.1.1, (h.2.2 (by decide) (by decide)).2⟩

/-- Claim C5, counterexample: the claim states that every operation returns
non-negative leftover values.  In the single-line buffer `"abc"`, `moveDown`
from the bare caret (1,1) (a reachable state: it is the state produced by
`moveToBeginningOfBuffer`) takes the boundary-clamped branch, snaps to
column 4, and returns leftover −3. -/
theorem claim_C5_counterexample :
    (MoveOperations.moveDown 4 [[97, 98, 99]]
        ⟨⟨1, 1⟩, 0, ⟨1, 1⟩, 0, false⟩ false 1).leftoverVisibleColumns < 0 := by
  decide

/-- Claim C5, amended: a vertical step (`down` or `up`) that reaches its
destination line without boundary-clamping and starts from a non-negative
leftover returns a non-negative leftover (the realized column's visible
column never exceeds the desired one, by the round-down policy of
`columnFromVisibleColumn`); the boundary-clamped branches can return
negative leftover. -/
theorem claim_C5_amended :
    (∀ (ts : Nat) (b : Buffer) (l c : Nat) (lo : Int) (count : Nat) (allow : Bool),
      1 ≤ ts → 0 ≤ lo → l + count ≤ getLineCount b →
      0 ≤ (MoveOperations.down ts b l c lo count allow).leftoverVisibleColumns) ∧
    (∀ (ts : Nat) (b : Buffer) (l c : Nat) (lo : Int) (count : Nat) (allow : Bool),
      1 ≤ ts → 0 ≤ lo → 1 ≤ l - count →
      0 ≤ (MoveOperations.up ts b l c lo count allow).leftoverVisibleColumns) := by
  constructor
  · intro ts b l c lo count allow hts hlo h
    rw [MoveOperations.down_not_clamped ts b l c lo count allow h]
    have hcv : (0 : Int)
        ≤ (CursorColumns.visibleColumnFromColumn (getLineContent b l) c ts : Int) + lo := by
      have := Int.ofNat_nonneg (CursorColumns.visibleColumnFromColumn (getLineContent b l) c ts)
      omega
    have hle := CursorColumns.visible_columnFromVisibleColumnAux_le ts
      (getLineContent b (l + count))
      ((CursorColumns.visibleColumnFromColumn (getLineContent b l) c ts : Int) + lo) hts hcv
    simp only [CursorColumns.columnFromVisibleColumn2]
    omega
  · intro ts b l c lo count allow hts hlo h
    rw [MoveOperations.up_not_clamped ts b l c lo count allow h]
    have hcv : (0 : Int)
        ≤ (CursorColumns.visibleColumnFromColumn (getLineContent b l) c ts : Int) + lo := by
      have := Int.ofNat_nonneg (CursorColumns.visibleColumnFromColumn (getLineContent b l) c ts)
      omega
    have hle := CursorColumns.visible_columnFromVisibleColumnAux_le ts
      (getLineContent b (l - count))
      ((CursorColumns.visibleColumnFromColumn (getLineContent b l) c ts : Int) + lo) hts hcv
    simp only [CursorColumns.columnFromVisibleColumn2]
    omega

/-- Claim C5, witness for the amended theorem: unclamped single-line steps
in the two-line buffer `"a"` / `"bb"` return non-negative leftover. -/
theorem claim_C5_amended_witness :
    0 ≤ (MoveOperations.down 4 [[97], [98, 98]] 1 1 0 1 true).leftoverVisibleColumns ∧
    0 ≤ (MoveOperations.up 4 [[97], [98, 98]] 2 1 0 1 true).leftoverVisibleColumns :=
  ⟨claim_C5_amended.1 4 [[97], [98, 98]] 1 1 0 1 true (by decide) (by decide) (by decide),
    claim_C5_amended.2 4 [[97], [98, 98]] 2 1 0 1 true (by decide) (by decide) (by decide)⟩

/-- Claim C6: for every valid position in the buffer (line in range, column
within `[minColumn, maxColumn]`, on a logical character boundary) that is
neither the buffer's start (1,1) nor its end (last line, max column),
`rightPosition (leftPosition p) = p` and `leftPosition (rightPosition p) = p`. -/
theorem claim_C6 :
    ∀ (b : Buffer) (l c : Nat),
      1 ≤ l → l ≤ getLineCount b → 1 ≤ c → c ≤ getLineMaxColumn b l →
      isCharBoundary (getLineContent b l) c = true →
      ¬(l = 1 ∧ c = 1) →
      ¬(l = getLineCount b ∧ c = getLineMaxColumn b l) →
      MoveOperations.rightPosition b (MoveOperations.leftPosition b l c).lineNumber
          (MoveOperations.leftPosition b l c).column = ⟨l, c⟩ ∧
        MoveOperations.leftPosition b (MoveOperations.rightPosition b l c).lineNumber
          (MoveOperations.rightPosition b l c).column = ⟨l, c⟩ := by
  intro b l c hl1 hl2 hc1 hc2 hbd hstart hend
  constructor
  · by_cases h1 : getLineMinColumn b l < c
    · have h2 : 2 ≤ c := by
        simp only [getLineMinColumn] at h1
        omega
      have hprev1 : 1 ≤ prevCharLength (getLineContent b l) (c - 1) := by
        unfold prevCharLength
        split <;> omega
      have hL := prevCharLength_le (s := getLineContent b l) h2
      have hnext := nextCharLength_prevCharLength h2 hbd
      unfold MoveOperations.leftPosition
      rw [if_pos h1]
      show MoveOperations.rightPosition b l
          (c - prevCharLength (getLineContent b l) (c - 1)) = ⟨l, c⟩
      unfold MoveOperations.rightPosition
      rw [if_pos (show c - prevCharLength (getLineContent b l) (c - 1)
          < getLineMaxColumn b l by omega)]
      rw [hnext]
      simp only [Position.mk.injEq]
      exact ⟨trivial, by omega⟩
    · simp only [getLineMinColumn] at h1
      have hc : c = 1 := by omega
      have hlge : 2 ≤ l := by
        rcases Nat.lt_or_ge l 2 with h | h
        · exact absurd ⟨by omega, hc⟩ hstart
        · exact h
      subst hc
      unfold MoveOperations.leftPosition
      rw [if_neg (show ¬ getLineMinColumn b l < 1 by simp only [getLineMinColumn]; omega),
        if_pos (show 1 < l by omega)]
      show MoveOperations.rightPosition b (l - 1) (getLineMaxColumn b (l - 1)) = ⟨l, 1⟩
      unfold MoveOperations.rightPosition
      rw [if_neg (show ¬ getLineMaxColumn b (l - 1) < getLineMaxColumn b (l - 1) by omega),
        if_pos (show l - 1 < getLineCount b by omega)]
      simp only [Position.mk.injEq]
      exact ⟨by omega, rfl⟩
  · by_cases h1 : c < getLineMaxColumn b l
    · have hnext1 : 1 ≤ nextCharLength (getLineContent b l) (c - 1) := by
        unfold nextCharLength
        split <;> omega
      have hprev := prevCharLength_nextCharLength hc1 hbd
      unfold MoveOperations.rightPosition
      rw [if_pos h1]
      show MoveOperations.leftPosition b l
          (c + nextCharLength (getLineContent b l) (c - 1)) = ⟨l, c⟩
      unfold MoveOperations.leftPosition
      rw [if_pos (show getLineMinColumn b l
          < c + nextCharLength (getLineContent b l) (c - 1) by
            simp only [getLineMinColumn]; omega)]
      rw [hprev]
      simp only [Position.mk.injEq]
      exact ⟨trivial, by omega⟩
    · have hceq : c = getLineMaxColumn b l := by omega
      have hllt : l < getLineCount b := by
        rcases Nat.lt_or_ge l (getLineCount b) with h | h
        · exact h
        · exact absurd ⟨by omega, hceq⟩ hend
      unfold MoveOperations.rightPosition
      rw [if_neg h1, if_pos hllt]
      show MoveOperations.leftPosition b (l + 1) (getLineMinColumn b (l + 1)) = ⟨l, c⟩
      unfold MoveOperations.leftPosition
      rw [if_neg (show ¬ getLineMinColumn b (l + 1) < getLineMinColumn b (l + 1) by omega),
        if_pos (show 1 < l + 1 by omega)]
      rw [show l + 1 - 1 = l by omega]
      simp only [Position.mk.injEq]
      exact ⟨trivial, hceq.symm⟩

/-- Claim C6, witness: position (1,2) in the buffer with lines `"ab"` and
`"c"` is valid, on a boundary, and interior; both round trips return it. -/
theorem claim_C6_witness :
    MoveOperations.rightPosition [[97, 98], [99]]
        (MoveOperations.leftPosition [[97, 98], [99]] 1 2).lineNumber
        (MoveOperations.leftPosition [[97, 98], [99]] 1 2).column = ⟨1, 2⟩ ∧
      MoveOperations.leftPosition [[97, 98], [99]]
        (MoveOperations.rightPosition [[97, 98], [99]] 1 2).lineNumber
        (MoveOperations.rightPosition [[97, 98], [99]] 1 2).column = ⟨1, 2⟩ :=
  claim_C6 [[97, 98], [99]] 1 2 (by decide) (by decide) (by decide) (by decide)
    (by decide) (by decide) (by decide)

namespace MoveOperations

lemma down_lineNumber (ts : Nat) (b : Buffer) (l c : Nat) (lo : Int) (count : Nat)
    (allow : Bool) (h : l + count ≤ getLineCount b) :
    (down ts b l c lo count allow).lineNumber = l + count := by
  rw [down_not_clamped ts b l c lo count allow h]

/-- An unclamped `down` step preserves the desired visible column: the
visible column attained on the target line plus the outgoing leftover
equals the visible column of the source position plus the incoming
leftover. -/
lemma down_preserves_target (ts : Nat) (b : Buffer) (l c : Nat) (lo : Int) (count : Nat)
    (h : l + count ≤ getLineCount b) :
    (CursorColumns.visibleColumnFromColumn (getLineContent b (l + count))
        (down ts b l c lo count true).column ts : Int)
      + (down ts b l c lo count true).leftoverVisibleColumns
    = (CursorColumns.visibleColumnFromColumn (getLineContent b l) c ts : Int) + lo := by
  rw [down_not_clamped ts b l c lo count true h]
  ring

/-- When the desired visible column is exactly attainable at column `c2` of
the target line, an unclamped `down` step lands exactly on `c2`. -/
lemma down_exact (ts : Nat) (b : Buffer) (l c : Nat) (lo : Int) (count : Nat)
    (hts : 1 ≤ ts) (h : l + count ≤ getLineCount b)
    (c2 : Nat) (hc21 : 1 ≤ c2) (hc22 : c2 ≤ getLineMaxColumn b (l + count))
    (hvis : (CursorColumns.visibleColumnFromColumn (getLineContent b (l + count)) c2 ts : Int)
      = (CursorColumns.visibleColumnFromColumn (getLineContent b l) c ts : Int) + lo) :
    (down ts b l c lo count true).column = c2 := by
  rw [down_not_clamped ts b l c lo count true h]
  show CursorColumns.columnFromVisibleColumn2 ts b (l + count)
      ((CursorColumns.visibleColumnFromColumn (getLineContent b l) c ts : Int) + lo) = c2
  unfold CursorColumns.columnFromVisibleColumn2
  rw [← hvis]
  exact CursorColumns.columnFromVisibleColumnAux_visible ts _ c2 hts hc21 hc22

end MoveOperations

/-- Claim C7: from a non-sticky caret with leftover 0 whose visible column
is attainable on the lines involved, (1) an unclamped `down` by `count`
followed by `up` by the same `count` returns exactly the original line and
column, and (2) when the intermediate line is shorter than the desired
visible column, the leftover carried by two consecutive single-line `down`
steps makes the caret land exactly on the original visible column (with
leftover 0) on a later line where that visible column is attainable. -/
theorem claim_C7 :
    (∀ (ts : Nat) (b : Buffer) (l c count : Nat),
      1 ≤ ts → 1 ≤ c → c ≤ getLineMaxColumn b l → 1 ≤ l →
      l + count ≤ getLineCount b →
      (∃ c2, 1 ≤ c2 ∧ c2 ≤ getLineMaxColumn b (l + count) ∧
        (CursorColumns.visibleColumnFromColumn (getLineContent b (l + count)) c2 ts : Int)
          = (CursorColumns.visibleColumnFromColumn (getLineContent b l) c ts : Int)) →
      (MoveOperations.up ts b
          (MoveOperations.down ts b l c 0 count true).lineNumber
          (MoveOperations.down ts b l c 0 count true).column
          (MoveOperations.down ts b l c 0 count true).leftoverVisibleColumns
          count true).lineNumber = l ∧
        (MoveOperations.up ts b
          (MoveOperations.down ts b l c 0 count true).lineNumber
          (MoveOperations.down ts b l c 0 count true).column
          (MoveOperations.down ts b l c 0 count true).leftoverVisibleColumns
          count true).column = c) ∧
    (∀ (ts : Nat) (b : Buffer) (l c : Nat),
      1 ≤ ts → 1 ≤ c → c ≤ getLineMaxColumn b l → l + 2 ≤ getLineCount b →
      (CursorColumns.visibleColumnFromColumn (getLineContent b (l + 1))
          (getLineMaxColumn b (l + 1)) ts : Int)
        < (CursorColumns.visibleColumnFromColumn (getLineContent b l) c ts : Int) →
      (∃ c2, 1 ≤ c2 ∧ c2 ≤ getLineMaxColumn b (l + 2) ∧
        (CursorColumns.visibleColumnFromColumn (getLineContent b (l + 2)) c2 ts : Int)
          = (CursorColumns.visibleColumnFromColumn (getLineContent b l) c ts : Int)) →
      (MoveOperations.down ts b
          (MoveOperations.down ts b l c 0 1 true).lineNumber
          (MoveOperations.down ts b l c 0 1 true).column
          (MoveOperations.down ts b l c 0 1 true).leftoverVisibleColumns
          1 true).lineNumber = l + 2 ∧
        (CursorColumns.visibleColumnFromColumn (getLineContent b (l + 2))
          (MoveOperations.down ts b
            (MoveOperations.down ts b l c 0 1 true).lineNumber
            (MoveOperations.down ts b l c 0 1 true).column
            (MoveOperations.down ts b l c 0 1 true).leftoverVisibleColumns
            1 true).column ts : Int)
          = (CursorColumns.visibleColumnFromColumn (getLineContent b l) c ts : Int) ∧
        (MoveOperations.down ts b
          (MoveOperations.down ts b l c 0 1 true).lineNumber
          (MoveOperations.down ts b l c 0 1 true).column
          (MoveOperations.down ts b l c 0 1 true).leftoverVisibleColumns
          1 true).leftoverVisibleColumns = 0) := by
  constructor
  · intro ts b l c count hts hc1 hc2 hl1 hcnt hattain
    rw [MoveOperations.down_not_clamped ts b l c 0 count true hcnt]
    rw [MoveOperations.up_not_clamped ts b (l + count)
      (CursorColumns.columnFromVisibleColumn2 ts b (l + count)
        ((CursorColumns.visibleColumnFromColumn (getLineContent b l) c ts : Int) + 0))
      (((CursorColumns.visibleColumnFromColumn (getLineContent b l) c ts : Int) + 0)
        - (CursorColumns.visibleColumnFromColumn (getLineContent b (l + count))
            (CursorColumns.columnFromVisibleColumn2 ts b (l + count)
              ((CursorColumns.visibleColumnFromColumn (getLineContent b l) c ts : Int) + 0))
            ts : Int))
      count true (by omega)]
    rw [Nat.add_sub_cancel]
    refine ⟨rfl, ?_⟩
    show CursorColumns.columnFromVisibleColumn2 ts b l
        ((CursorColumns.visibleColumnFromColumn (getLineContent b (l + count))
            (CursorColumns.columnFromVisibleColumn2 ts b (l + count)
              ((CursorColumns.visibleColumnFromColumn (getLineContent b l) c ts : Int) + 0))
            ts : Int)
          + (((CursorColumns.visibleColumnFromColumn (getLineContent b l) c ts : Int) + 0)
            - (CursorColumns.visibleColumnFromColumn (getLineContent b (l + count))
                (CursorColumns.columnFromVisibleColumn2 ts b (l + count)
                  ((CursorColumns.visibleColumnFromColumn (getLineContent b l) c ts : Int) + 0))
                ts : Int))) = c
    rw [show ∀ (x y : Int), x + (y + 0 - x) = y from fun x y => by ring]
    unfold CursorColumns.columnFromVisibleColumn2
    refine CursorColumns.columnFromVisibleColumnAux_visible ts _ c hts hc1 ?_
    simp only [getLineMaxColumn] at hc2
    omega
  · intro ts b l c hts hc1 hc2 hl2 hshort hattain
    obtain ⟨c2, hc21, hc22, hvis⟩ := hattain
    have h1 : l + 1 ≤ getLineCount b := by omega
    have hline1 := MoveOperations.down_lineNumber ts b l c 0 1 true h1
    have hpres1 := MoveOperations.down_preserves_target ts b l c 0 1 h1
    rw [hline1]
    have h2 : l + 1 + 1 ≤ getLineCount b := by omega
    have hvis2 : (CursorColumns.visibleColumnFromColumn (getLineContent b (l + 1 + 1))
        c2 ts : Int)
        = (CursorColumns.visibleColumnFromColumn (getLineContent b (l + 1))
            (MoveOperations.down ts b l c 0 1 true).column ts : Int)
          + (MoveOperations.down ts b l c 0 1 true).leftoverVisibleColumns := by
      rw [show l + 1 + 1 = l + 2 from rfl]
      omega
    have hcol2 := MoveOperations.down_exact ts b (l + 1)
      (MoveOperations.down ts b l c 0 1 true).column
      (MoveOperations.down ts b l c 0 1 true).leftoverVisibleColumns
      1 hts h2 c2 hc21 (by rw [show l + 1 + 1 = l + 2 from rfl]; exact hc22) hvis2
    have hline2 := MoveOperations.down_lineNumber ts b (l + 1)
      (MoveOperations.down ts b l c 0 1 true).column
      (MoveOperations.down ts b l c 0 1 true).leftoverVisibleColumns 1 true h2
    have hpres2 := MoveOperations.down_preserves_target ts b (l + 1)
      (MoveOperations.down ts b l c 0 1 true).column
      (MoveOperations.down ts b l c 0 1 true).leftoverVisibleColumns 1 h2
    refine ⟨by rw [hline2], ?_, ?_⟩
    · rw [hcol2]
      rw [show l + 2 = l + 1 + 1 from rfl] at hvis ⊢
      omega
    · rw [hcol2] at hpres2
      rw [show l + 2 = l + 1 + 1 from rfl] at hvis
      omega

/-- Claim C7, witness: buffer with lines `"abcd"`, `"a"`, `"abcde"`; part
(1) with `count = 2` from (1,4), part (2) down-down from (1,4) across the
short line 2. -/
theorem claim_C7_witness :
    ((MoveOperations.up 4 [[97, 98, 99, 100], [97], [97, 98, 99, 100, 101]]
        (MoveOperations.down 4 [[97, 98, 99, 100], [97], [97, 98, 99, 100, 101]] 1 4 0 2 true).lineNumber
        (MoveOperations.down 4 [[97, 98, 99, 100], [97], [97, 98, 99, 100, 101]] 1 4 0 2 true).column
        (MoveOperations.down 4 [[97, 98, 99, 100], [97], [97, 98, 99, 100, 101]] 1 4 0 2 true).leftoverVisibleColumns
        2 true).lineNumber = 1 ∧
      (MoveOperations.up 4 [[97, 98, 99, 100], [97], [97, 98, 99, 100, 101]]
        (MoveOperations.down 4 [[97, 98, 99, 100], [97], [97, 98, 99, 100, 101]] 1 4 0 2 true).lineNumber
        (MoveOperations.down 4 [[97, 98, 99, 100], [97], [97, 98, 99, 100, 101]] 1 4 0 2 true).column
        (MoveOperations.down 4 [[97, 98, 99, 100], [97], [97, 98, 99, 100, 101]] 1 4 0 2 true).leftoverVisibleColumns
        2 true).column = 4) ∧
    ((MoveOperations.down 4 [[97, 98, 99, 100], [97], [97, 98, 99, 100, 101]]
        (MoveOperations.down 4 [[97, 98, 99, 100], [97], [97, 98, 99, 100, 101]] 1 4 0 1 true).lineNumber
        (MoveOperations.down 4 [[97, 98, 99, 100], [97], [97, 98, 99, 100, 101]] 1 4 0 1 true).column
        (MoveOperations.down 4 [[97, 98, 99, 100], [97], [97, 98, 99, 100, 101]] 1 4 0 1 true).leftoverVisibleColumns
        1 true).lineNumber = 3 ∧
      (CursorColumns.visibleColumnFromColumn
        (getLineContent [[97, 98, 99, 100], [97], [97, 98, 99, 100, 101]] 3)
        (MoveOperations.down 4 [[97, 98, 99, 100], [97], [97, 98, 99, 100, 101]]
          (MoveOperations.down 4 [[97, 98, 99, 100], [97], [97, 98, 99, 100, 101]] 1 4 0 1 true).lineNumber
          (MoveOperations.down 4 [[97, 98, 99, 100], [97], [97, 98, 99, 100, 101]] 1 4 0 1 true).column
          (MoveOperations.down 4 [[97, 98, 99, 100], [97], [97, 98, 99, 100, 101]] 1 4 0 1 true).leftoverVisibleColumns
          1 true).column 4 : Int)
        = (CursorColumns.visibleColumnFromColumn
            (getLineContent [[97, 98, 99, 100], [97], [97, 98, 99, 100, 101]] 1) 4 4 : Int) ∧
      (MoveOperations.down 4 [[97, 98, 99, 100], [97], [97, 98, 99, 100, 101]]
        (MoveOperations.down 4 [[97, 98, 99, 100], [97], [97, 98, 99, 100, 101]] 1 4 0 1 true).lineNumber
        (MoveOperations.down 4 [[97, 98, 99, 100], [97], [97, 98, 99, 100, 101]] 1 4 0 1 true).column
        (MoveOperations.down 4 [[97, 98, 99, 100], [97], [97, 98, 99, 100, 101]] 1 4 0 1 true).leftoverVisibleColumns
        1 true).leftoverVisibleColumns = 0) :=
  ⟨claim_C7.1 4 [[97, 98, 99, 100], [97], [97, 98, 99, 100, 101]] 1 4 2
      (by decide) (by decide) (by decide) (by decide) (by decide)
      ⟨4, by decide, by decide, by decide⟩,
    by
      have h := claim_C7.2 4 [[97, 98, 99, 100], [97], [97, 98, 99, 100, 101]] 1 4
        (by decide) (by decide) (by decide) (by decide) (by decide)
        ⟨4, by decide, by decide, by decide⟩
      exact ⟨h.1, h.2.1, h.2.2⟩⟩

/-- Claim C8: from a cursor holding a non-empty selection, a non-extending
`moveLeft` collapses to a bare caret (leftover 0) at the selection's
normalized start, and a non-extending `moveRight` to one at the selection's
normalized end, for every `noOfColumns` and wherever the floating end is. -/
theorem claim_C8 :
    ∀ (ts : Nat) (b : Buffer) (cursor : SingleCursorState) (n : Nat),
      cursor.hasSelection = true →
      ((MoveOperations.moveLeft ts b cursor false n).position = cursor.selectionStartPos ∧
        (MoveOperations.moveLeft ts b cursor false n).hasSelection = false ∧
        (MoveOperations.moveLeft ts b cursor false n).leftoverVisibleColumns = 0) ∧
      ((MoveOperations.moveRight ts b cursor false n).position = cursor.selectionEndPos ∧
        (MoveOperations.moveRight ts b cursor false n).hasSelection = false ∧
        (MoveOperations.moveRight ts b cursor false n).leftoverVisibleColumns = 0) := by
  intro ts b cursor n hsel
  have hL : MoveOperations.moveLeft ts b cursor false n =
      ⟨cursor.selectionStartPos, 0, cursor.selectionStartPos, 0, false⟩ := by
    simp [MoveOperations.moveLeft, hsel, SingleCursorState.move]
  have hR : MoveOperations.moveRight ts b cursor false n =
      ⟨cursor.selectionEndPos, 0, cursor.selectionEndPos, 0, false⟩ := by
    simp [MoveOperations.moveRight, hsel, SingleCursorState.move]
  rw [hL, hR]
  exact ⟨⟨rfl, by simp [SingleCursorState.hasSelection], rfl⟩,
    ⟨rfl, by simp [SingleCursorState.hasSelection], rfl⟩⟩

/-- Claim C8, witness: selection with anchor (1,5) and floating end (1,1)
on the line `"abcde"`; plain moves collapse to (1,1) and (1,5). -/
theorem claim_C8_witness :
    ((MoveOperations.moveLeft 4 [[97, 98, 99, 100, 101]]
        ⟨⟨1, 5⟩, 0, ⟨1, 1⟩, 0, false⟩ false 3).position
        = SingleCursorState.selectionStartPos ⟨⟨1, 5⟩, 0, ⟨1, 1⟩, 0, false⟩ ∧
      (MoveOperations.moveLeft 4 [[97, 98, 99, 100, 101]]
        ⟨⟨1, 5⟩, 0, ⟨1, 1⟩, 0, false⟩ false 3).hasSelection = false ∧
      (MoveOperations.moveLeft 4 [[97, 98, 99, 100, 101]]
        ⟨⟨1, 5⟩, 0, ⟨1, 1⟩, 0, false⟩ false 3).leftoverVisibleColumns = 0) ∧
    ((MoveOperations.moveRight 4 [[97, 98, 99, 100, 101]]
        ⟨⟨1, 5⟩, 0, ⟨1, 1⟩, 0, false⟩ false 3).position
        = SingleCursorState.selectionEndPos ⟨⟨1, 5⟩, 0, ⟨1, 1⟩, 0, false⟩ ∧
      (MoveOperations.moveRight 4 [[97, 98, 99, 100, 101]]
        ⟨⟨1, 5⟩, 0, ⟨1, 1⟩, 0, false⟩ false 3).hasSelection = false ∧
      (MoveOperations.moveRight 4 [[97, 98, 99, 100, 101]]
        ⟨⟨1, 5⟩, 0, ⟨1, 1⟩, 0, false⟩ false 3).leftoverVisibleColumns = 0) :=
  claim_C8 4 [[97, 98, 99, 100, 101]] ⟨⟨1, 5⟩, 0, ⟨1, 1⟩, 0, false⟩ 3 (by decide)

/-- Claim C9: `moveToBeginningOfLine` (smart home) stays on the caret's
line; writing `fnb` for the line's first non-blank column (falling back to
the min column when the line is all blank), it returns the min column when
the caret's column equals `fnb` and `fnb` otherwise; hence two consecutive
invocations toggle between the two columns whenever they differ. -/
theorem claim_C9 :
    ∀ (ts : Nat) (b : Buffer) (cursor : SingleCursorState) (inSel : Bool) (fnb : Nat),
      fnb = (if getLineFirstNonWhitespaceColumn b cursor.position.lineNumber = 0
             then getLineMinColumn b cursor.position.lineNumber
             else getLineFirstNonWhitespaceColumn b cursor.position.lineNumber) →
      (MoveOperations.moveToBeginningOfLine ts b cursor inSel).position.lineNumber
          = cursor.position.lineNumber ∧
      (cursor.position.column = fnb →
        (MoveOperations.moveToBeginningOfLine ts b cursor inSel).position.column
          = getLineMinColumn b cursor.position.lineNumber) ∧
      (cursor.position.column ≠ fnb →
        (MoveOperations.moveToBeginningOfLine ts b cursor inSel).position.column = fnb) ∧
      (fnb ≠ getLineMinColumn b cursor.position.lineNumber →
        (MoveOperations.moveToBeginningOfLine ts b
            (MoveOperations.moveToBeginningOfLine ts b cursor inSel) inSel).position.column
          = (if cursor.position.column = fnb
             then fnb
             else getLineMinColumn b cursor.position.lineNumber)) := by
  intro ts b cursor inSel fnb hfnb
  subst hfnb
  refine ⟨?_, ?_, ?_, ?_⟩
  · cases inSel <;>
      simp [MoveOperations.moveToBeginningOfLine, SingleCursorState.move]
  · intro h
    cases inSel <;>
      simp [MoveOperations.moveToBeginningOfLine, SingleCursorState.move, h]
  · intro h
    cases inSel <;>
      simp [MoveOperations.moveToBeginningOfLine, SingleCursorState.move, h]
  · intro hne
    by_cases h : cursor.position.column
        = (if getLineFirstNonWhitespaceColumn b cursor.position.lineNumber = 0
           then getLineMinColumn b cursor.position.lineNumber
           else getLineFirstNonWhitespaceColumn b cursor.position.lineNumber)
    · cases inSel <;>
        simp [MoveOperations.moveToBeginningOfLine, SingleCursorState.move, h, Ne.symm hne]
    · cases inSel <;>
        simp [MoveOperations.moveToBeginningOfLine, SingleCursorState.move, h]

/-- Claim C9, witness: line `"   hello"` (three leading spaces), caret at
column 9: smart home goes to column 4, and from column 4 a second
invocation toggles to column 1. -/
theorem claim_C9_witness :
    (MoveOperations.moveToBeginningOfLine 4 [[32, 32, 32, 104, 101, 108, 108, 111]]
        ⟨⟨1, 9⟩, 0, ⟨1, 9⟩, 0, false⟩ false).position.lineNumber = 1 ∧
    (MoveOperations.moveToBeginningOfLine 4 [[32, 32, 32, 104, 101, 108, 108, 111]]
        ⟨⟨1, 9⟩, 0, ⟨1, 9⟩, 0, false⟩ false).position.column = 4 ∧
    (MoveOperations.moveToBeginningOfLine 4 [[32, 32, 32, 104, 101, 108, 108, 111]]
        (MoveOperations.moveToBeginningOfLine 4 [[32, 32, 32, 104, 101, 108, 108, 111]]
          ⟨⟨1, 9⟩, 0, ⟨1, 9⟩, 0, false⟩ false) false).position.column = 1 :=
  have h := claim_C9 4 [[32, 32, 32, 104, 101, 108, 108, 111]]
    ⟨⟨1, 9⟩, 0, ⟨1, 9⟩, 0, false⟩ false 4 (by decide)
  ⟨h.1, h.2.2.1 (by decide), by
    have h2 := h.2.2.2 (by decide)
    simpa using h2⟩

/-- Claim C10: the vertical `up` step from line 1 with any count ≥ 1 stays
on line 1; with the boundary-snap flag disabled (translate style) the
column is unchanged except bounded by the line's max column, and with the
flag enabled (caret-style `moveUp`) the column is the line's min column. -/
theorem claim_C10 :
    ∀ (ts : Nat) (b : Buffer) (c : Nat) (lo : Int) (count : Nat),
      1 ≤ count → 1 ≤ getLineCount b →
      (MoveOperations.up ts b 1 c lo count false).lineNumber = 1 ∧
      (MoveOperations.up ts b 1 c lo count false).column = min (getLineMaxColumn b 1) c ∧
      (MoveOperations.up ts b 1 c lo count true).lineNumber = 1 ∧
      (MoveOperations.up ts b 1 c lo count true).column = getLineMinColumn b 1 := by
  intro ts b c lo count hcnt hcount
  have h : 1 - count < 1 := by omega
  simp only [MoveOperations.up]
  rw [if_pos h, if_pos h]
  exact ⟨rfl, rfl, rfl, rfl⟩

/-- Claim C10, witness: `up` by 3 from (1,2) in the buffer `"a"` / `"bb"`:
with the flag disabled the column is bounded to min(2,2) = 2; with the flag
enabled it snaps to column 1. -/
theorem claim_C10_witness :
    (MoveOperations.up 4 [[97], [98, 98]] 1 2 0 3 false).lineNumber = 1 ∧
    (MoveOperations.up 4 [[97], [98, 98]] 1 2 0 3 false).column
      = min (getLineMaxColumn [[97], [98, 98]] 1) 2 ∧
    (MoveOperations.up 4 [[97], [98, 98]] 1 2 0 3 true).lineNumber = 1 ∧
    (MoveOperations.up 4 [[97], [98, 98]] 1 2 0 3 true).column
      = getLineMinColumn [[97], [98, 98]] 1 :=
  claim_C10 4 [[97], [98, 98]] 2 0 3 (by decide) (by decide)
